import Mathlib

/-!
Verification of the annotation-normalizer component of the Visopti
repository (`src/ml/utils/yolo_labels.py`): a shallow embedding of
`clamp`, `normalize_box`, `sample_to_boxes` and `format_yolo_labels`
over JSON-like values, with real arithmetic modelled exactly by `ℚ`.
-/

namespace Visopti

/-- JSON-like runtime values, as the Python code receives them.
`bool` is kept separate from `num` because Python's `bool` is a subclass
of `int`: an `isinstance(v, (int, float))` check accepts booleans, which
the embedding mirrors in `asNum`.  A Python `None` (absent key or JSON
null) is `JValue.null`. -/
inductive JValue where
  | null
  | bool (b : Bool)
  | num (q : ℚ)
  | str (s : String)
  | arr (xs : List JValue)
  | obj (fields : List (String × JValue))

/-- Association-list lookup, modelling `dict.__getitem__` key search
(Python dict literals have unique keys, so first match is the match). -/
def getField : List (String × JValue) → String → Option JValue
  | [], _ => none
  | (k, v) :: rest, key => if k = key then some v else getField rest key

/-- `d.get(key)`: Python returns `None` when the key is absent; a stored
JSON null is also `None`, so both collapse to `JValue.null`. -/
def pyGet (d : List (String × JValue)) (key : String) : JValue :=
  (getField d key).getD JValue.null

/-- `isinstance(v, (int, float))` together with the numeric value used in
subsequent arithmetic: a number is itself, `True` counts as 1 and `False`
as 0 (Python bools are ints); everything else is rejected. -/
def asNum : JValue → Option ℚ
  | .num q => some q
  | .bool b => some (if b then 1 else 0)
  | _ => none

/-- `value is None` for a Python value coming from JSON. -/
def isNull : JValue → Bool
  | .null => true
  | _ => false

/-- `CLASS_NAME_TO_ID` from the source. -/
def CLASS_NAME_TO_ID : List (String × ℕ) :=
  [("tree_deciduous", 0), ("tree_pine", 1), ("billboard", 2), ("stop_sign", 3)]

/-- `IGNORED_CLASSES` from the source. -/
def IGNORED_CLASSES : List String := ["dense_cover"]

/-- `NEGATIVE_CLASS` from the source. -/
def NEGATIVE_CLASS : String := "negative"

/-- `class_name in IGNORED_CLASSES`: set membership by equality; a
non-string value never equals a string. -/
def isIgnoredClass : JValue → Bool
  | .str s => IGNORED_CLASSES.contains s
  | _ => false

/-- `class_name == NEGATIVE_CLASS`: only a string can compare equal. -/
def isNegativeClass : JValue → Bool
  | .str s => s == NEGATIVE_CLASS
  | _ => false

/-- `CLASS_NAME_TO_ID.get(class_name)`: the registry keys are strings, so
any non-string key misses. -/
def lookupClassId : JValue → Option ℕ
  | .str s => (CLASS_NAME_TO_ID.find? (fun p => p.1 = s)).map Prod.snd
  | _ => none

/-- `clamp(value, min_value, max_value) = max(min_value, min(max_value, value))`. -/
def clamp (value min_value max_value : ℚ) : ℚ :=
  max min_value (min max_value value)

/-- `normalize_box(x0, y0, x1, y1, width, height)`: clamp each coordinate
into the frame, reject boxes whose clamped extent is ≤ 1 px in either
dimension, otherwise return center and size in pixel units. -/
def normalize_box (x0 y0 x1 y1 : ℚ) (width height : ℕ) :
    Option (ℚ × ℚ × ℚ × ℚ) :=
  let x0 := clamp x0 0 width
  let x1 := clamp x1 0 width
  let y0 := clamp y0 0 height
  let y1 := clamp y1 0 height
  let box_w := x1 - x0
  let box_h := y1 - y0
  if box_w ≤ 1 ∨ box_h ≤ 1 then none
  else some ((x0 + x1) / 2, (y0 + y1) / 2, box_w, box_h)

/-- The per-annotation validation and geometry of the loop body of
`sample_to_boxes` (lines 64-90): produce the raw pixel-space
center/size, or `none` when the annotation is skipped. -/
def annotation_to_raw (ann : JValue) (width height : ℕ) :
    Option (ℚ × ℚ × ℚ × ℚ) :=
  match ann with
  | .obj fields =>
    match pyGet fields "kind" with
    | .str "circle" =>
      match pyGet fields "centerPx", asNum (pyGet fields "radiusPx") with
      | .obj center, some radius =>
        match asNum (pyGet center "x"), asNum (pyGet center "y") with
        | some cx, some cy =>
            normalize_box (cx - radius) (cy - radius) (cx + radius) (cy + radius)
              width height
        | _, _ => none
      | _, _ => none
    | .str "bbox" =>
      match asNum (pyGet fields "x"), asNum (pyGet fields "y"),
            asNum (pyGet fields "width"), asNum (pyGet fields "height") with
      | some x, some y, some w, some h =>
          normalize_box x y (x + w) (y + h) width height
      | _, _, _, _ => none
    | _ => none
  | _ => none

/-- One loop iteration's emitted box (lines 92-101): normalize the raw
pixel-space values by the image dimensions. -/
structure YoloBox where
  class_id : ℕ
  x_center : ℚ
  y_center : ℚ
  width : ℚ
  height : ℚ
deriving DecidableEq

def annotation_to_box (class_id : ℕ) (ann : JValue)
    (width height : ℕ) : Option YoloBox :=
  match annotation_to_raw ann width height with
  | none => none
  | some (x_center, y_center, box_w, box_h) =>
    some { class_id := class_id
           x_center := x_center / width
           y_center := y_center / height
           width := box_w / width
           height := box_h / height }

/-- The `for annotation in annotations` loop, appending each emitted box. -/
def process_annotations (class_id : ℕ) (annotations : List JValue)
    (width height : ℕ) : List YoloBox :=
  annotations.foldl
    (fun boxes ann =>
      match annotation_to_box class_id ann width height with
      | none => boxes
      | some box => boxes ++ [box]) []

/-- `sample_to_boxes(sample, width, height)`. -/
def sample_to_boxes (sample : List (String × JValue)) (width height : ℕ) :
    List YoloBox :=
  let class_name := pyGet sample "class"
  if isIgnoredClass class_name || isNull class_name then []
  else if isNegativeClass class_name then []
  else
    match lookupClassId class_name with
    | none => []
    | some class_id =>
      match pyGet sample "annotations" with
      | .arr annotations => process_annotations class_id annotations width height
      | _ => []

/-- A decimal digit character. -/
def digit_char (n : ℕ) : Char := Char.ofNat (48 + n % 10)

/-- The six digits after the decimal point, most significant first,
zero-padded, of a numerator `m < 10^6`. -/
def frac6_string (m : ℕ) : String :=
  String.mk [digit_char (m / 100000), digit_char (m / 10000),
             digit_char (m / 1000), digit_char (m / 100),
             digit_char (m / 10), digit_char m]

/-- Round to the nearest integer, ties to even — the rounding of Python's
fixed-point float formatting. -/
def round_half_even (q : ℚ) : ℤ :=
  let fl := ⌊q⌋
  let r := q - fl
  if r < 1/2 then fl
  else if 1/2 < r then fl + 1
  else if fl % 2 = 0 then fl else fl + 1

/-- `f"{q:.6f}"`: sign, integer part, point, exactly six fraction digits. -/
def format_float6 (q : ℚ) : String :=
  let sign := if q < 0 then "-" else ""
  let n := (round_half_even (|q| * 1000000)).toNat
  sign ++ toString (n / 1000000) ++ "." ++ frac6_string (n % 1000000)

/-- The f-string of one label line. -/
def format_box (box : YoloBox) : String :=
  toString box.class_id ++ " " ++ format_float6 box.x_center ++ " " ++
    format_float6 box.y_center ++ " " ++ format_float6 box.width ++ " " ++
    format_float6 box.height

/-- `format_yolo_labels(boxes)`: one line per box, in order. -/
def format_yolo_labels (boxes : List YoloBox) : List String :=
  boxes.foldl (fun lines box => lines ++ [format_box box]) []

/-- A circle annotation record with numeric fields. -/
def mkCircleAnn (cx cy r : ℚ) : JValue :=
  .obj [("kind", .str "circle"),
        ("centerPx", .obj [("x", .num cx), ("y", .num cy)]),
        ("radiusPx", .num r)]

/-- A bbox annotation record with numeric fields. -/
def mkBboxAnn (x y w h : ℚ) : JValue :=
  .obj [("kind", .str "bbox"), ("x", .num x), ("y", .num y),
        ("width", .num w), ("height", .num h)]

/-- Shape validation of one annotation record: a mapping with a recognized
`kind` whose required fields are all present and numeric — exactly the
checks the loop performs before any geometry. -/
def well_formed_fields : JValue → Bool
  | .obj fields =>
    match pyGet fields "kind" with
    | .str "circle" =>
      (match pyGet fields "centerPx" with
       | .obj center =>
          (asNum (pyGet center "x")).isSome && (asNum (pyGet center "y")).isSome
       | _ => false) && (asNum (pyGet fields "radiusPx")).isSome
    | .str "bbox" =>
      (asNum (pyGet fields "x")).isSome && (asNum (pyGet fields "y")).isSome &&
        (asNum (pyGet fields "width")).isSome &&
        (asNum (pyGet fields "height")).isSome
    | _ => false
  | _ => false

/-- A string consisting of an integer part, a decimal point, and exactly six
decimal digits after it. -/
def six_frac_digits (s : String) : Prop :=
  ∃ int_part frac_part : String,
    s = int_part ++ "." ++ frac_part ∧ frac_part.length = 6 ∧
    ∀ c ∈ frac_part.data, c.isDigit = true

/-- Scenario B of the spec: class `tree_pine`, one in-frame bbox
`x=10, y=10, width=100, height=50`. -/
def scenarioB_sample : List (String × JValue) :=
  [("class", .str "tree_pine"),
   ("annotations", .arr [mkBboxAnn 10 10 100 50])]

/-- A sample whose circle annotation carries the boolean `True` as its
`radiusPx` field. -/
def bool_radius_sample : List (String × JValue) :=
  [("class", .str "billboard"),
   ("annotations", .arr [ .obj [("kind", .str "circle"),
      ("centerPx", .obj [("x", .num 100), ("y", .num 100)]),
      ("radiusPx", .bool true)] ])]

/-! ### Basic facts about `clamp` and `normalize_box` -/

lemma clamp_nonneg (v hi : ℚ) : 0 ≤ clamp v 0 hi := le_max_left _ _

lemma clamp_le (v hi : ℚ) (h : 0 ≤ hi) : clamp v 0 hi ≤ hi := by
  unfold clamp
  exact max_le h (min_le_left _ _)

lemma clamp_of_mem (v lo hi : ℚ) (h1 : lo ≤ v) (h2 : v ≤ hi) :
    clamp v lo hi = v := by
  unfold clamp
  rw [min_eq_right h2, max_eq_right h1]

lemma normalize_box_in_frame (x0 y0 x1 y1 : ℚ) (W H : ℕ)
    (hx0 : 0 ≤ x0) (hx1 : x1 ≤ W) (hy0 : 0 ≤ y0) (hy1 : y1 ≤ H)
    (hw : 1 < x1 - x0) (hh : 1 < y1 - y0) :
    normalize_box x0 y0 x1 y1 W H =
      some ((x0 + x1) / 2, (y0 + y1) / 2, x1 - x0, y1 - y0) := by
  have hx0W : x0 ≤ (W : ℚ) := by linarith
  have hx10 : 0 ≤ x1 := by linarith
  have hy0H : y0 ≤ (H : ℚ) := by linarith
  have hy10 : 0 ≤ y1 := by linarith
  unfold normalize_box
  rw [clamp_of_mem x0 0 W hx0 hx0W, clamp_of_mem x1 0 W hx10 hx1,
      clamp_of_mem y0 0 H hy0 hy0H, clamp_of_mem y1 0 H hy10 hy1]
  rw [if_neg (by push_neg; constructor <;> linarith)]

lemma normalize_box_some (x0 y0 x1 y1 : ℚ) (W H : ℕ) (cx cy bw bh : ℚ)
    (h : normalize_box x0 y0 x1 y1 W H = some (cx, cy, bw, bh)) :
    0 ≤ cx ∧ cx ≤ W ∧ 0 ≤ cy ∧ cy ≤ H ∧
    1 < bw ∧ bw ≤ W ∧ 1 < bh ∧ bh ≤ H := by
  have hW : (0 : ℚ) ≤ W := Nat.cast_nonneg W
  have hH : (0 : ℚ) ≤ H := Nat.cast_nonneg H
  have bx0 := clamp_nonneg x0 (W : ℚ)
  have bx0' := clamp_le x0 (W : ℚ) hW
  have bx1 := clamp_nonneg x1 (W : ℚ)
  have bx1' := clamp_le x1 (W : ℚ) hW
  have by0 := clamp_nonneg y0 (H : ℚ)
  have by0' := clamp_le y0 (H : ℚ) hH
  have by1 := clamp_nonneg y1 (H : ℚ)
  have by1' := clamp_le y1 (H : ℚ) hH
  simp only [normalize_box] at h
  split at h
  · exact absurd h (by simp)
  · next hguard =>
    push_neg at hguard
    simp only [Option.some.injEq, Prod.mk.injEq] at h
    obtain ⟨hcx, hcy, hbw, hbh⟩ := h
    subst hcx hcy hbw hbh
    refine ⟨by linarith, by linarith, by linarith, by linarith,
      hguard.1, by linarith, hguard.2, by linarith⟩

/-! ### The annotation loop as a `filterMap` -/

lemma foldl_emit_eq_filterMap (class_id width height : ℕ) :
    ∀ (anns : List JValue) (acc : List YoloBox),
      anns.foldl (fun boxes ann =>
          match annotation_to_box class_id ann width height with
          | none => boxes
          | some box => boxes ++ [box]) acc =
        acc ++ anns.filterMap (fun a => annotation_to_box class_id a width height)
  | [], acc => by simp
  | a :: rest, acc => by
    simp only [List.foldl_cons, List.filterMap_cons]
    cases h : annotation_to_box class_id a width height with
    | none => simpa using foldl_emit_eq_filterMap class_id width height rest acc
    | some b =>
      rw [foldl_emit_eq_filterMap class_id width height rest (acc ++ [b])]
      simp

lemma process_annotations_eq_filterMap (class_id : ℕ) (anns : List JValue)
    (width height : ℕ) :
    process_annotations class_id anns width height =
      anns.filterMap (fun a => annotation_to_box class_id a width height) := by
  unfold process_annotations
  simpa using foldl_emit_eq_filterMap class_id width height anns []

lemma format_foldl_eq_map :
    ∀ (boxes : List YoloBox) (acc : List String),
      boxes.foldl (fun lines box => lines ++ [format_box box]) acc =
        acc ++ boxes.map format_box
  | [], acc => by simp
  | b :: rest, acc => by
    simp only [List.foldl_cons, List.map_cons]
    rw [format_foldl_eq_map rest (acc ++ [format_box b])]
    simp

lemma format_yolo_labels_eq_map (boxes : List YoloBox) :
    format_yolo_labels boxes = boxes.map format_box := by
  unfold format_yolo_labels
  simpa using format_foldl_eq_map boxes []

/-! ### Facts about class resolution -/

lemma lookupClassId_not_special (v : JValue) (class_id : ℕ)
    (h : lookupClassId v = some class_id) :
    isIgnoredClass v = false ∧ isNegativeClass v = false ∧ isNull v = false := by
  cases v with
  | str s =>
    refine ⟨?_, ?_, rfl⟩
    · simp only [isIgnoredClass, IGNORED_CLASSES, List.contains_cons,
        List.elem_nil, Bool.or_false, beq_eq_false_iff_ne, ne_eq]
      rintro rfl
      simp [lookupClassId, CLASS_NAME_TO_ID, List.find?] at h
    · simp only [isNegativeClass, NEGATIVE_CLASS, beq_eq_false_iff_ne, ne_eq]
      rintro rfl
      simp [lookupClassId, CLASS_NAME_TO_ID, List.find?] at h
  | null => exact absurd h (by simp [lookupClassId])
  | bool b => exact absurd h (by simp [lookupClassId])
  | num q => exact absurd h (by simp [lookupClassId])
  | arr xs => exact absurd h (by simp [lookupClassId])
  | obj fields => exact absurd h (by simp [lookupClassId])

lemma sample_to_boxes_resolved (sample : List (String × JValue))
    (width height class_id : ℕ) (anns : List JValue)
    (hcls : lookupClassId (pyGet sample "class") = some class_id)
    (hanns : pyGet sample "annotations" = JValue.arr anns) :
    sample_to_boxes sample width height =
      process_annotations class_id anns width height := by
  obtain ⟨h1, h2, h3⟩ := lookupClassId_not_special _ _ hcls
  unfold sample_to_boxes
  rw [if_neg (by simp [h1, h3]), if_neg (by simp [h2]), hcls, hanns]

/-! ### Facts about per-annotation processing -/

lemma annotation_to_raw_bbox (x y w h : ℚ) (W H : ℕ) :
    annotation_to_raw (mkBboxAnn x y w h) W H =
      normalize_box x y (x + w) (y + h) W H := by
  simp [annotation_to_raw, mkBboxAnn, pyGet, getField, asNum]

lemma annotation_to_raw_circle (cx cy r : ℚ) (W H : ℕ) :
    annotation_to_raw (mkCircleAnn cx cy r) W H =
      normalize_box (cx - r) (cy - r) (cx + r) (cy + r) W H := by
  simp [annotation_to_raw, mkCircleAnn, pyGet, getField, asNum]

lemma annotation_to_raw_some (ann : JValue) (W H : ℕ)
    (out : ℚ × ℚ × ℚ × ℚ) (h : annotation_to_raw ann W H = some out) :
    ∃ x0 y0 x1 y1, normalize_box x0 y0 x1 y1 W H = some out := by
  unfold annotation_to_raw at h
  split at h
  · next fields =>
    split at h
    · split at h
      · split at h
        · exact ⟨_, _, _, _, h⟩
        · exact absurd h (by simp)
      · exact absurd h (by simp)
    · split at h
      · exact ⟨_, _, _, _, h⟩
      · exact absurd h (by simp)
    · exact absurd h (by simp)
  · exact absurd h (by simp)

lemma annotation_to_box_some (class_id : ℕ) (ann : JValue) (W H : ℕ)
    (box : YoloBox) (h : annotation_to_box class_id ann W H = some box) :
    ∃ xc yc bw bh, annotation_to_raw ann W H = some (xc, yc, bw, bh) ∧
      box = ⟨class_id, xc / W, yc / H, bw / W, bh / H⟩ := by
  unfold annotation_to_box at h
  split at h
  · exact absurd h (by simp)
  · next xc yc bw bh heq =>
    exact ⟨xc, yc, bw, bh, heq, by injection h with h; exact h.symm⟩

/-! ### Claim theorems: geometry -/

/-- C1: `normalize_box` clamps `x0, x1` independently into `[0, width]` and
`y0, y1` into `[0, height]`, computes the box extent from the clamped values,
returns `none` exactly when the clamped width or height is ≤ 1, and otherwise
returns the clamped center and the (positive) extent, in pixel units. -/
theorem normalize_box_spec (x0 y0 x1 y1 : ℚ) (width height : ℕ) :
    (0 ≤ clamp x0 0 width ∧ clamp x0 0 width ≤ width) ∧
    (0 ≤ clamp x1 0 width ∧ clamp x1 0 width ≤ width) ∧
    (0 ≤ clamp y0 0 height ∧ clamp y0 0 height ≤ height) ∧
    (0 ≤ clamp y1 0 height ∧ clamp y1 0 height ≤ height) ∧
    (normalize_box x0 y0 x1 y1 width height = none ↔
      clamp x1 0 width - clamp x0 0 width ≤ 1 ∨
      clamp y1 0 height - clamp y0 0 height ≤ 1) ∧
    (1 < clamp x1 0 width - clamp x0 0 width →
      1 < clamp y1 0 height - clamp y0 0 height →
      normalize_box x0 y0 x1 y1 width height =
        some ((clamp x0 0 width + clamp x1 0 width) / 2,
              (clamp y0 0 height + clamp y1 0 height) / 2,
              clamp x1 0 width - clamp x0 0 width,
              clamp y1 0 height - clamp y0 0 height)) := by
  have hW : (0 : ℚ) ≤ width := Nat.cast_nonneg width
  have hH : (0 : ℚ) ≤ height := Nat.cast_nonneg height
  refine ⟨⟨clamp_nonneg _ _, clamp_le _ _ hW⟩, ⟨clamp_nonneg _ _, clamp_le _ _ hW⟩,
    ⟨clamp_nonneg _ _, clamp_le _ _ hH⟩, ⟨clamp_nonneg _ _, clamp_le _ _ hH⟩, ?_, ?_⟩
  · simp only [normalize_box]
    by_cases hc : clamp x1 0 width - clamp x0 0 width ≤ 1 ∨
        clamp y1 0 height - clamp y0 0 height ≤ 1
    · rw [if_pos hc]
      exact iff_of_true rfl hc
    · rw [if_neg hc]
      exact iff_of_false (by simp) hc
  · intro h1 h2
    simp only [normalize_box]
    rw [if_neg (by push_neg; exact ⟨by linarith, by linarith⟩)]

/-- Witness for C1 at a concrete input: a clamped width of `1.01` with
height `3` is accepted, and the center/extent come out in pixel units. -/
theorem normalize_box_spec_witness :
    normalize_box 0 0 (101/100) 3 640 480 = some (101/200, 3/2, 101/100, 3) := by
  have e1 : clamp 0 0 ((640 : ℕ) : ℚ) = 0 := clamp_of_mem _ _ _ le_rfl (by norm_num)
  have e2 : clamp (101/100) 0 ((640 : ℕ) : ℚ) = 101/100 :=
    clamp_of_mem _ _ _ (by norm_num) (by norm_num)
  have e3 : clamp 0 0 ((480 : ℕ) : ℚ) = 0 := clamp_of_mem _ _ _ le_rfl (by norm_num)
  have e4 : clamp 3 0 ((480 : ℕ) : ℚ) = 3 :=
    clamp_of_mem _ _ _ (by norm_num) (by norm_num)
  have h := (normalize_box_spec 0 0 (101/100) 3 640 480).2.2.2.2.2
  rw [e1, e2, e3, e4] at h
  rw [h (by norm_num) (by norm_num)]
  norm_num

/-- C3: a bbox annotation with `width > 1`, `height > 1` fully inside the
frame round-trips: the emitted normalized box, rescaled by the image
dimensions, exactly reconstructs the input rectangle. -/
theorem bbox_round_trip (class_id : ℕ) (x y w h : ℚ) (width height : ℕ)
    (hw : 1 < w) (hh : 1 < h) (hx0 : 0 ≤ x) (hy0 : 0 ≤ y)
    (hx1 : x + w ≤ width) (hy1 : y + h ≤ height)
    (hW : 0 < width) (hH : 0 < height) :
    ∃ box : YoloBox,
      annotation_to_box class_id (mkBboxAnn x y w h) width height = some box ∧
      box.x_center * width = x + w / 2 ∧ box.y_center * height = y + h / 2 ∧
      box.width * width = w ∧ box.height * height = h := by
  have hW' : ((width : ℕ) : ℚ) ≠ 0 := by
    exact_mod_cast Nat.pos_iff_ne_zero.mp hW
  have hH' : ((height : ℕ) : ℚ) ≠ 0 := by
    exact_mod_cast Nat.pos_iff_ne_zero.mp hH
  have hnorm : normalize_box x y (x + w) (y + h) width height =
      some ((x + (x + w)) / 2, (y + (y + h)) / 2, x + w - x, y + h - y) :=
    normalize_box_in_frame _ _ _ _ _ _ hx0 hx1 hy0 hy1 (by linarith) (by linarith)
  refine ⟨⟨class_id, ((x + (x + w)) / 2) / width, ((y + (y + h)) / 2) / height,
      (x + w - x) / width, (y + h - y) / height⟩, ?_, ?_, ?_, ?_, ?_⟩
  · unfold annotation_to_box
    rw [annotation_to_raw_bbox, hnorm]
  · show ((x + (x + w)) / 2) / width * width = x + w / 2
    field_simp
    ring
  · show ((y + (y + h)) / 2) / height * height = y + h / 2
    field_simp
    ring
  · show (x + w - x) / width * width = w
    field_simp
  · show (y + h - y) / height * height = h
    field_simp

/-- Witness for C3: the Scenario B rectangle `x=10, y=10, w=100, h=50` on a
640×640 image. -/
theorem bbox_round_trip_witness :
    ∃ box : YoloBox,
      annotation_to_box 1 (mkBboxAnn 10 10 100 50) 640 640 = some box ∧
      box.x_center * (640 : ℕ) = 10 + 100 / 2 ∧
      box.y_center * (640 : ℕ) = 10 + 50 / 2 ∧
      box.width * (640 : ℕ) = 100 ∧ box.height * (640 : ℕ) = 50 :=
  bbox_round_trip 1 10 10 100 50 640 640 (by norm_num) (by norm_num)
    (by norm_num) (by norm_num) (by norm_num) (by norm_num)
    (by norm_num) (by norm_num)

/-- C7: a valid circle annotation passes exactly the enclosing square
`(cx-r, cy-r, cx+r, cy+r)` to `normalize_box`; when that square is fully
in-frame and `2r > 1`, the raw emitted box is square with side `2r`. -/
theorem circle_enclosing_square (cx cy r : ℚ) (width height : ℕ) :
    annotation_to_raw (mkCircleAnn cx cy r) width height =
      normalize_box (cx - r) (cy - r) (cx + r) (cy + r) width height ∧
    (0 ≤ cx - r → cx + r ≤ width → 0 ≤ cy - r → cy + r ≤ height →
      1 < 2 * r →
      annotation_to_raw (mkCircleAnn cx cy r) width height =
        some (cx, cy, 2 * r, 2 * r)) := by
  refine ⟨annotation_to_raw_circle cx cy r width height, ?_⟩
  intro h1 h2 h3 h4 h5
  rw [annotation_to_raw_circle,
    normalize_box_in_frame _ _ _ _ _ _ h1 h2 h3 h4 (by linarith) (by linarith)]
  simp only [Option.some.injEq, Prod.mk.injEq]
  refine ⟨by ring, by ring, by ring, by ring⟩

/-- Witness for C7: an in-frame circle at `(100, 100)` with radius 20 on a
640×480 image yields the square box of side 40. -/
theorem circle_enclosing_square_witness :
    annotation_to_raw (mkCircleAnn 100 100 20) 640 480 =
      some (100, 100, 2 * 20, 2 * 20) :=
  (circle_enclosing_square 100 100 20 640 480).2 (by norm_num) (by norm_num)
    (by norm_num) (by norm_num) (by norm_num)

/-! ### Inversion lemmas for `sample_to_boxes` -/

lemma sample_to_boxes_mem (sample : List (String × JValue)) (W H : ℕ)
    (box : YoloBox) (hmem : box ∈ sample_to_boxes sample W H) :
    ∃ class_id ann, lookupClassId (pyGet sample "class") = some class_id ∧
      annotation_to_box class_id ann W H = some box := by
  simp only [sample_to_boxes] at hmem
  split at hmem
  · simp at hmem
  · split at hmem
    · simp at hmem
    · split at hmem
      · simp at hmem
      · next class_id hcid =>
        split at hmem
        · next anns hanns =>
          rw [process_annotations_eq_filterMap] at hmem
          obtain ⟨ann, _, hbox⟩ := List.mem_filterMap.mp hmem
          exact ⟨class_id, ann, hcid, hbox⟩
        · simp at hmem

lemma not_well_formed_raw_none (ann : JValue) (W H : ℕ)
    (h : well_formed_fields ann = false) : annotation_to_raw ann W H = none := by
  cases ann with
  | obj fields =>
    simp only [well_formed_fields] at h
    simp only [annotation_to_raw]
    split
    · next hkind =>
      rw [hkind] at h
      simp only at h
      split
      · next center radius hc hr =>
        rw [hc, hr] at h
        simp only [Option.isSome_some, Bool.and_true] at h
        split
        · next cx cy hx hy =>
          rw [hx, hy] at h
          simp at h
        · rfl
      · rfl
    · next hkind =>
      rw [hkind] at h
      simp only at h
      split
      · next x y w hh hx hy hw hhh =>
        rw [hx, hy, hw, hhh] at h
        simp at h
      · rfl
    · rfl
  | null => rfl
  | bool b => rfl
  | num q => rfl
  | str s => rfl
  | arr xs => rfl

/-! ### Claim theorems: dispatch and robustness -/

/-- C2: a sample whose class is absent (`None`), ignored, the negative
sentinel, or not in the registry, and likewise one whose `annotations`
field is not a sequence, yields the empty box list. -/
theorem sample_to_boxes_empty_cases (sample : List (String × JValue))
    (width height : ℕ)
    (h : pyGet sample "class" = JValue.null ∨
         isIgnoredClass (pyGet sample "class") = true ∨
         isNegativeClass (pyGet sample "class") = true ∨
         lookupClassId (pyGet sample "class") = none ∨
         ∀ xs, pyGet sample "annotations" ≠ JValue.arr xs) :
    sample_to_boxes sample width height = [] := by
  simp only [sample_to_boxes]
  by_cases h1 : (isIgnoredClass (pyGet sample "class") ||
      isNull (pyGet sample "class")) = true
  · rw [if_pos h1]
  · rw [if_neg h1]
    by_cases h2 : isNegativeClass (pyGet sample "class") = true
    · rw [if_pos h2]
    · rw [if_neg h2]
      rcases h with hnull | hign | hneg | hlook | hanns
      · exact absurd (by simp [hnull, isNull]) h1
      · exact absurd (by simp [hign]) h1
      · exact absurd hneg h2
      · rw [hlook]
      · cases hl : lookupClassId (pyGet sample "class") with
        | none => rfl
        | some class_id =>
          cases ha : pyGet sample "annotations" with
          | arr xs => exact absurd ha (hanns xs)
          | null => rfl
          | bool b => rfl
          | num q => rfl
          | str s => rfl
          | obj fs => rfl

/-- Witness for C2: the empty sample (class key absent). -/
theorem sample_to_boxes_empty_cases_witness :
    sample_to_boxes [] 640 480 = [] :=
  sample_to_boxes_empty_cases [] 640 480 (Or.inl rfl)

/-- C4: every emitted box has all four normalized fields in `[0, 1]`, its
width and height strictly positive, and its `class_id` the registry
identifier of the sample's class. -/
theorem sample_to_boxes_invariants (sample : List (String × JValue))
    (width height : ℕ) (hW : 0 < width) (hH : 0 < height) (box : YoloBox)
    (hmem : box ∈ sample_to_boxes sample width height) :
    lookupClassId (pyGet sample "class") = some box.class_id ∧
    0 ≤ box.x_center ∧ box.x_center ≤ 1 ∧
    0 ≤ box.y_center ∧ box.y_center ≤ 1 ∧
    0 < box.width ∧ box.width ≤ 1 ∧
    0 < box.height ∧ box.height ≤ 1 := by
  have hW' : (0 : ℚ) < width := by exact_mod_cast hW
  have hH' : (0 : ℚ) < height := by exact_mod_cast hH
  obtain ⟨class_id, ann, hcid, hbox⟩ :=
    sample_to_boxes_mem sample width height box hmem
  obtain ⟨xc, yc, bw, bh, hraw, rfl⟩ :=
    annotation_to_box_some class_id ann width height box hbox
  obtain ⟨x0, y0, x1, y1, hnorm⟩ :=
    annotation_to_raw_some ann width height _ hraw
  obtain ⟨h1, h2, h3, h4, h5, h6, h7, h8⟩ :=
    normalize_box_some x0 y0 x1 y1 width height xc yc bw bh hnorm
  refine ⟨hcid, div_nonneg h1 hW'.le, ?_, div_nonneg h3 hH'.le, ?_,
    div_pos (by linarith) hW', ?_, div_pos (by linarith) hH', ?_⟩
  · exact (div_le_one hW').mpr h2
  · exact (div_le_one hH').mpr h4
  · exact (div_le_one hW').mpr h6
  · exact (div_le_one hH').mpr h8

/-- C5: a malformed ann (wrong shape, unrecognized kind, or a
missing/non-numeric required field) is skipped, while the sibling
annotations before and after it still contribute their boxes. -/
theorem malformed_annotation_skipped (class_id width height : ℕ)
    (pre post : List JValue) (bad : JValue)
    (hbad : well_formed_fields bad = false) :
    process_annotations class_id (pre ++ bad :: post) width height =
      process_annotations class_id pre width height ++
        process_annotations class_id post width height ∧
    process_annotations class_id (pre ++ bad :: post) width height =
      process_annotations class_id (pre ++ post) width height := by
  have hnone : annotation_to_box class_id bad width height = none := by
    unfold annotation_to_box
    rw [not_well_formed_raw_none bad width height hbad]
  constructor <;>
    simp [process_annotations_eq_filterMap, List.filterMap_append,
      List.filterMap_cons, hnone]

/-- Witness for C5: a string where a mapping was expected, between a valid
bbox and a valid circle. -/
theorem malformed_annotation_skipped_witness :
    process_annotations 1 ([mkBboxAnn 10 10 100 50] ++ JValue.str "oops" ::
        [mkCircleAnn 100 100 20]) 640 640 =
      process_annotations 1 [mkBboxAnn 10 10 100 50] 640 640 ++
        process_annotations 1 [mkCircleAnn 100 100 20] 640 640 ∧
    process_annotations 1 ([mkBboxAnn 10 10 100 50] ++ JValue.str "oops" ::
        [mkCircleAnn 100 100 20]) 640 640 =
      process_annotations 1 ([mkBboxAnn 10 10 100 50] ++ [mkCircleAnn 100 100 20])
        640 640 :=
  malformed_annotation_skipped 1 640 640 [mkBboxAnn 10 10 100 50]
    [mkCircleAnn 100 100 20] (JValue.str "oops") rfl

/-- C6: for a registered class and a sequence-shaped annotations field, the
result is exactly the per-annotation `filterMap`: one box per annotation
passing validation, none from any other, in the original relative order. -/
theorem sample_to_boxes_order (sample : List (String × JValue))
    (width height class_id : ℕ) (anns : List JValue)
    (hcls : lookupClassId (pyGet sample "class") = some class_id)
    (hanns : pyGet sample "annotations" = JValue.arr anns) :
    sample_to_boxes sample width height =
      anns.filterMap (fun a => annotation_to_box class_id a width height) := by
  rw [sample_to_boxes_resolved sample width height class_id anns hcls hanns,
      process_annotations_eq_filterMap]

/-- Witness for C6: Scenario B's sample. -/
theorem sample_to_boxes_order_witness :
    sample_to_boxes scenarioB_sample 640 640 =
      [mkBboxAnn 10 10 100 50].filterMap
        (fun a => annotation_to_box 1 a 640 640) :=
  sample_to_boxes_order scenarioB_sample 640 640 1 [mkBboxAnn 10 10 100 50]
    rfl rfl

/-! ### Formatting lemmas -/

lemma digit_char_isDigit (n : ℕ) : (digit_char n).isDigit = true := by
  unfold digit_char
  have h : n % 10 < 10 := Nat.mod_lt _ (by norm_num)
  revert h
  generalize n % 10 = m
  intro h
  interval_cases m <;> decide

lemma format_float6_six (q : ℚ) : six_frac_digits (format_float6 q) := by
  refine ⟨(if q < 0 then "-" else "") ++
      toString ((round_half_even (|q| * 1000000)).toNat / 1000000),
    frac6_string ((round_half_even (|q| * 1000000)).toNat % 1000000),
    rfl, rfl, ?_⟩
  intro c hc
  simp only [frac6_string, List.mem_cons, List.not_mem_nil, or_false] at hc
  rcases hc with rfl | rfl | rfl | rfl | rfl | rfl <;> exact digit_char_isDigit _

lemma scenarioB_boxes_eval :
    sample_to_boxes scenarioB_sample 640 640 =
      [⟨1, 3/32, 7/128, 5/32, 5/64⟩] := by
  simp [sample_to_boxes, scenarioB_sample, mkBboxAnn, pyGet, getField, isIgnoredClass,
    isNull, isNegativeClass, lookupClassId, CLASS_NAME_TO_ID, List.find?, IGNORED_CLASSES,
    NEGATIVE_CLASS, process_annotations, annotation_to_box, annotation_to_raw, asNum,
    normalize_box, clamp]
  norm_num [min_def, max_def, YoloBox.mk.injEq]

/-- Witness for C4: the box of Scenario B satisfies all the invariants. -/
theorem sample_to_boxes_invariants_witness :
    lookupClassId (pyGet scenarioB_sample "class") = some 1 ∧
    0 ≤ (3/32 : ℚ) ∧ (3/32 : ℚ) ≤ 1 ∧ 0 ≤ (7/128 : ℚ) ∧ (7/128 : ℚ) ≤ 1 ∧
    0 < (5/32 : ℚ) ∧ (5/32 : ℚ) ≤ 1 ∧ 0 < (5/64 : ℚ) ∧ (5/64 : ℚ) ≤ 1 :=
  sample_to_boxes_invariants scenarioB_sample 640 640 (by norm_num) (by norm_num)
    ⟨1, 3/32, 7/128, 5/32, 5/64⟩
    (by rw [scenarioB_boxes_eval]; exact List.mem_singleton.mpr rfl)

/-! ### Claim theorems: output formatting and concrete scenarios -/

/-- C8: `format_yolo_labels` maps each box, in order, to one line
`<class_id> <x_center> <y_center> <width> <height>` whose class id is the
decimal integer and whose four fields each carry exactly six digits after
the decimal point, with nothing trailing; the empty list maps to the empty
list. -/
theorem format_labels_spec (boxes : List YoloBox) :
    format_yolo_labels boxes = boxes.map format_box ∧
    format_yolo_labels [] = [] ∧
    ∀ box : YoloBox, ∃ f1 f2 f3 f4 : String,
      format_box box =
        toString box.class_id ++ " " ++ f1 ++ " " ++ f2 ++ " " ++ f3 ++ " " ++ f4 ∧
      six_frac_digits f1 ∧ six_frac_digits f2 ∧
      six_frac_digits f3 ∧ six_frac_digits f4 := by
  refine ⟨format_yolo_labels_eq_map boxes, rfl, ?_⟩
  intro box
  exact ⟨_, _, _, _, rfl, format_float6_six _, format_float6_six _,
    format_float6_six _, format_float6_six _⟩

/-- C9: Scenario B — class `tree_pine`, bbox `x=10, y=10, width=100,
height=50` on a 640×640 image — produces exactly one box with the stated
normalized coordinates, formatted as the stated line under 6-digit
rounding. -/
theorem scenario_b_eval :
    sample_to_boxes scenarioB_sample 640 640 =
      [⟨1, 60/640, 35/640, 100/640, 50/640⟩] ∧
    format_yolo_labels (sample_to_boxes scenarioB_sample 640 640) =
      ["1 0.093750 0.054688 0.156250 0.078125"] := by
  have h := scenarioB_boxes_eval
  constructor
  · rw [h]
    norm_num [YoloBox.mk.injEq]
  · have f1 : format_float6 (3/32) = "0.093750" := by
      have h0 : |(3 : ℚ)/32| * 1000000 = 93750 := by
        rw [abs_of_nonneg (by norm_num)]
        norm_num
      have h1 : round_half_even (|(3 : ℚ)/32| * 1000000) = 93750 := by
        rw [round_half_even, h0]
        norm_num
      simp [format_float6, h1]
      norm_num [frac6_string, digit_char]
      rfl
    have f2 : format_float6 (7/128) = "0.054688" := by
      have h0 : |(7 : ℚ)/128| * 1000000 = 109375/2 := by
        rw [abs_of_nonneg (by norm_num)]
        norm_num
      have h1 : round_half_even (|(7 : ℚ)/128| * 1000000) = 54688 := by
        rw [round_half_even, h0]
        norm_num
      simp [format_float6, h1]
      norm_num [frac6_string, digit_char]
      rfl
    have f3 : format_float6 (5/32) = "0.156250" := by
      have h0 : |(5 : ℚ)/32| * 1000000 = 156250 := by
        rw [abs_of_nonneg (by norm_num)]
        norm_num
      have h1 : round_half_even (|(5 : ℚ)/32| * 1000000) = 156250 := by
        rw [round_half_even, h0]
        norm_num
      simp [format_float6, h1]
      norm_num [frac6_string, digit_char]
      rfl
    have f4 : format_float6 (5/64) = "0.078125" := by
      have h0 : |(5 : ℚ)/64| * 1000000 = 78125 := by
        rw [abs_of_nonneg (by norm_num)]
        norm_num
      have h1 : round_half_even (|(5 : ℚ)/64| * 1000000) = 78125 := by
        rw [round_half_even, h0]
        norm_num
      simp [format_float6, h1]
      norm_num [frac6_string, digit_char]
      rfl
    rw [h, format_yolo_labels_eq_map]
    simp only [List.map_cons, List.map_nil, format_box]
    rw [f1, f2, f3, f4]
    rfl

/-- C10: boolean values pass the numeric-field checks (Python's `bool` is a
subclass of `int`): `True` reads as 1 and `False` as 0, and a circle with
`radiusPx = True` in frame yields a 2×2-pixel box instead of being
skipped. -/
theorem bool_fields_accepted :
    asNum (JValue.bool true) = some 1 ∧ asNum (JValue.bool false) = some 0 ∧
    sample_to_boxes bool_radius_sample 640 640 =
      [⟨2, 100/640, 100/640, 2/640, 2/640⟩] := by
  refine ⟨rfl, rfl, ?_⟩
  simp [sample_to_boxes, bool_radius_sample, pyGet, getField, isIgnoredClass,
    isNull, isNegativeClass, lookupClassId, CLASS_NAME_TO_ID, List.find?, IGNORED_CLASSES,
    NEGATIVE_CLASS, process_annotations, annotation_to_box, annotation_to_raw, asNum,
    normalize_box, clamp]
  norm_num [min_def, max_def, YoloBox.mk.injEq]

end Visopti
